import Mathlib

/-!
# Verification of the tldw transcript-acquisition core

A shallow embedding, in Lean 4, of the transcript-acquisition core of the
`tldw` command-line program (Go).  Go strings are modelled as `List Char`
(all inputs relevant here are ASCII, where Go byte indexing and Lean
character indexing agree); Go standard-library string helpers
(`strings.Contains`, `strings.Split`, `strings.TrimSpace`,
`strings.HasPrefix`) are re-implemented below with their documented
semantics.  Fallible operations return `Except`; external collaborators
(yt-dlp, ffmpeg, the transcription and chat services, the interactive
prompt) are modelled as environments that pre-record each call outcome,
and the pipeline additionally returns the trace of collaborator calls it
performed.
-/

namespace Tldw

/-! ## Go string primitives over `List Char` -/

/-- ASCII whitespace recognised by Go `unicode.IsSpace` (the non-ASCII
whitespace code points never occur in the inputs considered here). -/
def goIsSpace (c : Char) : Bool :=
  c = ' ' || c = '\t' || c = '\n' || c = '\x0b' || c = '\x0c' || c = '\r'

/-- Go `strings.TrimSpace`: drop whitespace from both ends. -/
def trimAscii (s : List Char) : List Char :=
  ((s.dropWhile goIsSpace).reverse.dropWhile goIsSpace).reverse

/-- Whether `pre` is a prefix of `s` (Go `strings.HasPrefix s pre`). -/
def isPrefixOfL : List Char → List Char → Bool
  | [], _ => true
  | _ :: _, [] => false
  | a :: as, b :: bs => a == b && isPrefixOfL as bs

/-- Go `strings.Contains s sub`: `sub` occurs as a contiguous substring
of `s`. -/
def containsL : List Char → List Char → Bool
  | [], sub => isPrefixOfL sub []
  | c :: t, sub => isPrefixOfL sub (c :: t) || containsL t sub

/-- Fuel-driven worker for `splitOnSep`; the fuel only bounds the number
of steps, one unit per consumed character, so `s.length` units suffice. -/
def splitGo (sep : List Char) : Nat → List Char → List (List Char)
  | _, [] => [[]]
  | 0, s => [s]
  | fuel + 1, c :: t =>
    if isPrefixOfL sep (c :: t) && !sep.isEmpty then
      [] :: splitGo sep fuel (List.drop sep.length (c :: t))
    else
      match splitGo sep fuel t with
      | [] => [[c]]
      | h :: r => (c :: h) :: r

/-- Go `strings.Split s sep` for a non-empty separator: cut `s` at every
non-overlapping left-to-right occurrence of `sep`.  (The Go special
case of an empty separator is never exercised by this program.) -/
def splitOnSep (sep s : List Char) : List (List Char) :=
  splitGo sep s.length s

/-- A single newline, the line separator of the subtitle format. -/
def newlineL : List Char := ['\n']

/-- A blank line, the block separator of the subtitle format. -/
def dblNewlineL : List Char := ['\n', '\n']

/-! ## Subtitle normalizer (`internal/ytdlp.go`)

`parseSRT` extracts the text lines of every block with at least three
lines (dropping the sequence-number and timing lines), `removeDuplicates`
drops lines overlapping their predecessor, and `processSrtTranscript`
joins the survivors with single newlines and trims the result.  The
I/O of `processSrtTranscript` (reading the .srt file, persisting the
result, removing the cached .srt) is outside the pure text transform
modelled by `normalizeSrt`. -/

/-- Text lines contributed by one SRT block: skip the first two lines
(sequence number and timestamp), keep the trimmed non-empty rest. -/
def blockTextLines (block : List Char) : List (List Char) :=
  let bl := splitOnSep newlineL block
  if 3 ≤ bl.length then ((bl.drop 2).map trimAscii).filter (fun l => !l.isEmpty)
  else []

/-- `parseSRT` from `internal/ytdlp.go`: blocks are separated by blank
lines; text lines of all blocks are concatenated in order. -/
def parseSRT (content : List Char) : List (List Char) :=
  ((splitOnSep dblNewlineL content).map blockTextLines).flatten

/-- The duplicate test of `removeDuplicates`:
`prevLine != "" && (strings.Contains(line, prevLine) || strings.Contains(prevLine, line))`. -/
def overlapsPrev (prev line : List Char) : Bool :=
  !prev.isEmpty && (containsL line prev || containsL prev line)

/-- Loop body of `removeDuplicates`: `prev` is the previous *input* line
(the Go loop reassigns `prevLine = line` on every iteration, whether or
not `line` was kept). -/
def removeDuplicatesAux (prev : List Char) : List (List Char) → List (List Char)
  | [] => []
  | line :: rest =>
    if overlapsPrev prev line then removeDuplicatesAux line rest
    else line :: removeDuplicatesAux line rest

/-- `removeDuplicates` from `internal/ytdlp.go` (`prevLine` starts `""`). -/
def removeDuplicates (lines : List (List Char)) : List (List Char) :=
  removeDuplicatesAux [] lines

/-- Newline-join of `processSrtTranscript` (separator between lines only). -/
def joinLines (lines : List (List Char)) : List Char :=
  List.intercalate newlineL lines

/-- The pure text transform of `processSrtTranscript`:
parse blocks, deduplicate, newline-join, trim. -/
def normalizeSrt (content : List Char) : List Char :=
  trimAscii (joinLines (removeDuplicates (parseSRT content)))

/-- Modelled from the spec wording of the deduplication rule (claim C4):
drop a line when it overlaps the most recently *kept* line; the
comparison reference advances only when a line is kept.  This is the
spec-side definition to be compared against `removeDuplicates`. -/
def specDedupByLastKeptAux (prevKept : List Char) : List (List Char) → List (List Char)
  | [] => []
  | line :: rest =>
    if overlapsPrev prevKept line then specDedupByLastKeptAux prevKept rest
    else line :: specDedupByLastKeptAux line rest

/-- Spec-side deduplication (comparison against the last kept line). -/
def specDedupByLastKept (lines : List (List Char)) : List (List Char) :=
  specDedupByLastKeptAux [] lines

/-! ## Lemmas about the split and dedup primitives -/

/-- A text containing no occurrence of the separator splits into the
single piece that is the whole text (any fuel). -/
theorem splitGo_of_not_contains (sep : List Char) :
    ∀ (s : List Char) (fuel : Nat), containsL s sep = false → splitGo sep fuel s = [s]
  | [], fuel, _ => by cases fuel <;> rfl
  | _ :: _, 0, _ => rfl
  | c :: t, fuel + 1, h => by
    simp only [containsL, Bool.or_eq_false_iff] at h
    simp [splitGo, h.1, splitGo_of_not_contains sep t fuel h.2]

/-- The loop of `removeDuplicates` keeps exactly the lines that do not
overlap their immediate predecessor in the *input* (the first compared
against the incoming `prev`), since `prevLine` is reassigned on every
iteration. -/
theorem removeDuplicatesAux_eq :
    ∀ (lines : List (List Char)) (prev : List Char),
      removeDuplicatesAux prev lines =
        (((prev :: lines).zip lines).filter (fun p => !overlapsPrev p.1 p.2)).map Prod.snd
  | [], _ => rfl
  | line :: rest, prev => by
    have ih := removeDuplicatesAux_eq rest line
    by_cases h : overlapsPrev prev line <;>
      simp [removeDuplicatesAux, List.filter_cons, h, ih]

/-! ## Claims C3, C4, C5 -/

/-- The two-block subtitle input of claim C3. -/
def c3Input : List Char :=
  ("1\n00:00:00-->00:00:02\nhello world\n\n2\n00:00:02-->00:00:04\nhello world there\n").toList

/-- Claim C3, counterexample: on the two-block hello-world input the
normalizer does NOT produce "hello world there" (the spec expected the
first line to be dropped and the subsuming second line kept). -/
theorem normalizeSrt_c3_ne_spec_output :
    normalizeSrt c3Input ≠ ("hello world there").toList := by decide

/-- Claim C3, amended: on the two-block hello-world input the normalizer
produces exactly "hello world": the overlap is detected, the two lines
are never kept together, but it is the FIRST line that is kept and the
overlapping second line that is dropped. -/
theorem normalizeSrt_c3_keeps_first_line :
    normalizeSrt c3Input = ("hello world").toList := by decide

/-- Claim C4, counterexample: on ["abc", "ab", "xb ab"] the
deduplication of the code differs from the last-kept-line rule of the
spec.  The code
drops "xb ab" because it overlaps the previously DROPPED line "ab",
while the spec rule would compare against the kept line "abc" and keep
it. -/
theorem removeDuplicates_ne_specDedupByLastKept :
    removeDuplicates [("abc").toList, ("ab").toList, ("xb ab").toList] ≠
      specDedupByLastKept [("abc").toList, ("ab").toList, ("xb ab").toList] := by decide

/-- Claim C4, amended: the deduplication walks the lines in order and
drops a line exactly when it overlaps (substring in either direction,
with an empty predecessor never overlapping) the line immediately
preceding it in the INPUT, whether or not that predecessor was kept;
the first line is always kept. -/
theorem removeDuplicates_drops_iff_overlaps_preceding (lines : List (List Char)) :
    removeDuplicates lines =
      match lines with
      | [] => []
      | a :: rest =>
        a :: ((lines.zip rest).filter (fun p => !overlapsPrev p.1 p.2)).map Prod.snd := by
  match lines with
  | [] => rfl
  | a :: rest =>
    have h := removeDuplicatesAux_eq (a :: rest) []
    simpa [removeDuplicates, List.filter_cons, overlapsPrev] using h

/-- The two-block subtitle input used to refute idempotence (claim C5). -/
def c5Input : List Char :=
  ("1\n00:00:00-->00:00:02\nhello\n\n2\n00:00:02-->00:00:04\nworld foo\n").toList

/-- Claim C5, counterexample: normalization is not idempotent.  For the
well-formed two-block input, the normalized output is "hello\nworld foo",
and re-normalizing that output yields "" (the two lines are consumed as
the sequence-number and timing lines of a single block). -/
theorem normalizeSrt_not_idempotent :
    normalizeSrt (normalizeSrt c5Input) ≠ normalizeSrt c5Input := by decide

/-- Claim C5, amended: re-normalization erases short outputs.  Any text
with no blank-line block separator and fewer than three lines (which
includes every normalized output of at most two lines) normalizes to the
empty text, so normalization is not idempotent on it unless it is
already empty. -/
theorem normalizeSrt_short_no_blank_line (t : List Char)
    (h1 : containsL t dblNewlineL = false)
    (h2 : (splitOnSep newlineL t).length < 3) :
    normalizeSrt t = [] := by
  have hs : splitOnSep dblNewlineL t = [t] :=
    splitGo_of_not_contains dblNewlineL t t.length h1
  unfold normalizeSrt parseSRT
  rw [hs]
  simp [blockTextLines, Nat.not_le.mpr h2, removeDuplicates, removeDuplicatesAux,
    joinLines, List.intercalate, trimAscii]

/-- Witness for the amended claim C5 at the concrete already-normalized
text "hello\nworld foo". -/
theorem normalizeSrt_short_no_blank_line_witness :
    containsL (("hello\nworld foo").toList) dblNewlineL = false ∧
      (splitOnSep newlineL (("hello\nworld foo").toList)).length < 3 ∧
      normalizeSrt (("hello\nworld foo").toList) = [] :=
  ⟨by decide, by decide,
    normalizeSrt_short_no_blank_line (("hello\nworld foo").toList) (by decide) (by decide)⟩

/-! ## Identifier classifier (`internal/utils.go`)

The content-type detection patterns and the argument parser
`ParseArgNew`.  The Go regular expressions are simple anchored
character-class patterns and are embedded as explicit character tests.
Go `url.Parse` is modelled by `parseURL` for the URL shapes the
classifier handles (scheme, host, path, query); percent-decoding,
userinfo and ports are not modelled, as no claim exercises them. -/

/-- ASCII uppercase letter. -/
def isAsciiUpper (c : Char) : Bool := 'A' ≤ c && c ≤ 'Z'

/-- ASCII lowercase letter. -/
def isAsciiLower (c : Char) : Bool := 'a' ≤ c && c ≤ 'z'

/-- ASCII digit. -/
def isAsciiDigit (c : Char) : Bool := '0' ≤ c && c ≤ '9'

/-- Character class `[A-Za-z0-9_-]` of the video/playlist/channel ID
patterns. -/
def isVideoIDChar (c : Char) : Bool :=
  isAsciiUpper c || isAsciiLower c || isAsciiDigit c || c = '-' || c = '_'

/-- Character class `[A-Za-z0-9._-]` of the channel-handle pattern. -/
def isHandleChar (c : Char) : Bool := isVideoIDChar c || c = '.'

/-- `videoIDPattern`: `^[A-Za-z0-9_-]{11}$` (`detectVideoID`). -/
def detectVideoID (s : List Char) : Bool :=
  s.length == 11 && s.all isVideoIDChar

/-- `playlistIDPattern`: `^PL[A-Za-z0-9_-]{16}$|^PL[A-Za-z0-9_-]{32}$`
(`detectPlaylistID`). -/
def detectPlaylistID (s : List Char) : Bool :=
  match s with
  | 'P' :: 'L' :: rest => (rest.length == 16 || rest.length == 32) && rest.all isVideoIDChar
  | _ => false

/-- `channelIDPattern`: `^UC[A-Za-z0-9_-]{22}$` (`detectChannelID`). -/
def detectChannelID (s : List Char) : Bool :=
  match s with
  | 'U' :: 'C' :: rest => rest.length == 22 && rest.all isVideoIDChar
  | _ => false

/-- Go `strings.TrimPrefix`: drop `pre` from the front when present. -/
def trimLead (pre s : List Char) : List Char :=
  if isPrefixOfL pre s then s.drop pre.length else s

/-- Go `strings.HasSuffix s suf`. -/
def endsWithL (s suf : List Char) : Bool :=
  isPrefixOfL suf.reverse s.reverse

/-- Lowercase one ASCII character (Go `strings.ToLower`, ASCII range). -/
def toLowerChar (c : Char) : Char :=
  if isAsciiUpper c then Char.ofNat (c.toNat + 32) else c

/-- ASCII lowercase of a string. -/
def toLowerL (s : List Char) : List Char := s.map toLowerChar

/-- `channelHandlePattern`: `^@?[A-Za-z0-9._-]{3,30}$`; since `@` is not
in the repeated class, an initial `@` is consumed by the optional part. -/
def channelHandleMatch (s : List Char) : Bool :=
  let t := match s with
    | '@' :: rest => rest
    | _ => s
  decide (3 ≤ t.length) && decide (t.length ≤ 30) && t.all isHandleChar

/-- `detectChannelHandle`: the pattern plus the (redundant) explicit
length check on the `@`-stripped handle. -/
def detectChannelHandle (s : List Char) : Bool :=
  channelHandleMatch s &&
    (let handle := trimLead ['@'] s
     decide (3 ≤ handle.length) && decide (handle.length ≤ 30))

/-- The `knownCommands` vocabulary of `detectCommand`. -/
def knownCommands : List (List Char) :=
  [("help"), ("version"), ("transcribe"), ("cp"), ("metadata"), ("mcp"),
   ("config"), ("paths"), ("init"), ("list"), ("show"), ("get"), ("set"),
   ("run"), ("start"), ("stop"), ("status"), ("info"), ("debug")].map String.toList

/-- The `commandLikeWords` heuristics list of `detectCommand`. -/
def commandLikeWords : List (List Char) :=
  [("install"), ("update"), ("remove"), ("delete"), ("create"), ("add"),
   ("edit"), ("modify"), ("change"), ("reset"), ("clear"), ("clean")].map String.toList

/-- `commandPattern`: `^[a-z]{2,15}$`. -/
def commandPatternMatch (s : List Char) : Bool :=
  decide (2 ≤ s.length) && decide (s.length ≤ 15) && s.all isAsciiLower

/-- `detectCommand` from `internal/utils.go`. -/
def detectCommand (s : List Char) : Bool :=
  commandPatternMatch s &&
    (knownCommands.any (fun cmd => cmd == s || containsL cmd s || containsL s cmd) ||
     commandLikeWords.any (fun w => containsL w s || containsL s w))

/-- The `commonWords` deny list of `isLikelyYouTubeChannelHandle`. -/
def commonWords : List (List Char) :=
  [("help"), ("version"), ("config"), ("settings"), ("options"), ("default"),
   ("example"), ("test"), ("demo"), ("sample"), ("invalid"), ("error"),
   ("command"), ("input"), ("output"), ("file"), ("directory"), ("path"),
   ("user"), ("admin"), ("system"), ("server"), ("client"), ("local")].map String.toList

/-- The `commonPatterns` list of `isCommonWordPattern`. -/
def commonPatterns : List (List Char) :=
  [("invalidcommand"), ("testcommand"), ("errorcommand"), ("defaultvalue"),
   ("exampletext"), ("sampledata"), ("placeholder"), ("randomtext")].map String.toList

/-- `containsDigit` from `internal/utils.go`. -/
def containsDigitL (s : List Char) : Bool := s.any isAsciiDigit

/-- `isCommonWordPattern` from `internal/utils.go`. -/
def isCommonWordPattern (s : List Char) : Bool :=
  let t := toLowerL s
  endsWithL t (("command").toList) || endsWithL t (("invalid").toList) ||
    endsWithL t (("error").toList) || endsWithL t (("test").toList) ||
    isPrefixOfL (("invalid").toList) t || isPrefixOfL (("error").toList) t ||
    isPrefixOfL (("test").toList) t || isPrefixOfL (("example").toList) t ||
    commonPatterns.any (fun p => p == t)

/-- `isLikelyYouTubeChannelHandle` from `internal/utils.go`. -/
def isLikelyYouTubeChannelHandle (s : List Char) : Bool :=
  detectChannelHandle s &&
    (let handle := trimLead ['@'] s
     !detectCommand handle &&
       !commonWords.any (fun w => w == toLowerL handle) &&
       (containsDigitL handle ||
        (decide (handle.length ≤ 10) && !isCommonWordPattern handle)))

/-- The content kinds of the classifier (`ContentType`). -/
inductive ContentType where
  | video
  | playlist
  | channel
  | command
  | unknown
deriving DecidableEq, Repr

/-- `detectContentType` from `internal/utils.go`: dispatch in order of
specificity, most specific first. -/
def detectContentType (s : List Char) : ContentType :=
  let s := trimAscii s
  if detectVideoID s then .video
  else if detectChannelID s then .channel
  else if detectPlaylistID s then .playlist
  else if detectCommand s then .command
  else if isLikelyYouTubeChannelHandle s then .channel
  else .unknown

/-- `ParsedArg` (the `Error` field is modelled as an optional message;
apostrophes that Go places around interpolated arguments are omitted). -/
structure ParsedArg where
  contentType : ContentType
  originalInput : List Char
  normalizedURL : List Char := []
  id : List Char := []
  err : Option (List Char) := none
deriving DecidableEq, Repr

/-- The fixed watch-URL template with the token as the `v` parameter. -/
def watchURL (id : List Char) : List Char :=
  ("https://www.youtube.com/watch?v=").toList ++ id

/-- The fixed playlist-URL template. -/
def playlistURL (id : List Char) : List Char :=
  ("https://www.youtube.com/playlist?list=").toList ++ id

/-- The fixed channel-URL template. -/
def channelURL (id : List Char) : List Char :=
  ("https://www.youtube.com/channel/").toList ++ id

/-- Split at the first character satisfying `p`: the part before, and
the rest beginning with that character (or `[]`). -/
def takeUntil (p : Char → Bool) (s : List Char) : List Char × List Char :=
  (s.takeWhile (fun c => !p c), s.dropWhile (fun c => !p c))

/-- The parts of a parsed URL used by the classifier. -/
structure GoURL where
  host : List Char
  path : List Char
  query : List (List Char × List Char)
deriving DecidableEq, Repr

/-- Query-string parsing (`k=v` pairs separated by `&`; no
percent-decoding, which no claim exercises). -/
def parseQuery (q : List Char) : List (List Char × List Char) :=
  (splitOnSep ['&'] q).filterMap fun kv =>
    if kv.isEmpty then none
    else
      let (k, v) := takeUntil (fun c => c = '=') kv
      some (k, v.drop 1)

/-- Model of Go `url.Parse` for the absolute `http(s)` URLs the
classifier feeds it: host up to the first `/`, `?` or `#`; path up to
`?` or `#`; then the query string.  Parse failures (control characters
in the URL) are not modelled. -/
def parseURL (raw : List Char) : GoURL :=
  let afterScheme :=
    if isPrefixOfL (("https://").toList) raw then raw.drop 8
    else if isPrefixOfL (("http://").toList) raw then raw.drop 7
    else raw
  let (hostPart, rest) := takeUntil (fun c => c = '/' || c = '?' || c = '#') afterScheme
  let (beforeFrag, _) := takeUntil (fun c => c = '#') rest
  let (path, queryPart) := takeUntil (fun c => c = '?') beforeFrag
  ⟨hostPart, path, parseQuery (queryPart.drop 1)⟩

/-- `u.Query().Get(key)`: first value for `key`, or empty. -/
def queryGet (u : GoURL) (key : List Char) : List Char :=
  match u.query.find? (fun p => p.1 == key) with
  | some p => p.2
  | none => []

/-- `parseWatchURL`: a valid `v=` video ID wins over `list=`. -/
def parseWatchURL (u : GoURL) (originalURL : List Char) : ParsedArg :=
  let videoID := queryGet u (("v").toList)
  let playlistID := queryGet u (("list").toList)
  if !videoID.isEmpty && detectVideoID videoID then
    ⟨.video, originalURL, watchURL videoID, videoID, none⟩
  else if !playlistID.isEmpty && detectPlaylistID playlistID then
    ⟨.playlist, originalURL, playlistURL playlistID, playlistID, none⟩
  else
    ⟨.unknown, originalURL, [], [],
      some (("no valid video or playlist ID found in watch URL").toList)⟩

/-- `parsePlaylistURL`. -/
def parsePlaylistURL (u : GoURL) (originalURL : List Char) : ParsedArg :=
  let playlistID := queryGet u (("list").toList)
  if !playlistID.isEmpty && detectPlaylistID playlistID then
    ⟨.playlist, originalURL, playlistURL playlistID, playlistID, none⟩
  else
    ⟨.unknown, originalURL, [], [],
      some (("invalid playlist ID: ").toList ++ playlistID)⟩

/-- `parseChannelURL`. -/
def parseChannelURL (u : GoURL) (originalURL : List Char) : ParsedArg :=
  let channelID := trimLead (("/channel/").toList) u.path
  if detectChannelID channelID then
    ⟨.channel, originalURL, channelURL channelID, channelID, none⟩
  else
    ⟨.unknown, originalURL, [], [], some (("invalid channel ID: ").toList ++ channelID)⟩

/-- `parseHandleURL`. -/
def parseHandleURL (u : GoURL) (originalURL : List Char) : ParsedArg :=
  let handle := trimLead ['/'] u.path
  if detectChannelHandle handle then
    ⟨.channel, originalURL, ("https://www.youtube.com/").toList ++ handle, handle, none⟩
  else
    ⟨.unknown, originalURL, [], [], some (("invalid channel handle: ").toList ++ handle)⟩

/-- `parseCustomChannelURL` (legacy `/c/Name`). -/
def parseCustomChannelURL (u : GoURL) (originalURL : List Char) : ParsedArg :=
  let channelName := trimLead (("/c/").toList) u.path
  if !channelName.isEmpty && decide (3 ≤ channelName.length) && decide (channelName.length ≤ 30) then
    ⟨.channel, originalURL, ("https://www.youtube.com/c/").toList ++ channelName, channelName, none⟩
  else
    ⟨.unknown, originalURL, [], [],
      some (("invalid custom channel name: ").toList ++ channelName)⟩

/-- `parseUserChannelURL` (legacy `/user/Name`). -/
def parseUserChannelURL (u : GoURL) (originalURL : List Char) : ParsedArg :=
  let username := trimLead (("/user/").toList) u.path
  if !username.isEmpty && decide (3 ≤ username.length) && decide (username.length ≤ 30) then
    ⟨.channel, originalURL, ("https://www.youtube.com/user/").toList ++ username, username, none⟩
  else
    ⟨.unknown, originalURL, [], [], some (("invalid username: ").toList ++ username)⟩

/-- `parseYouTubeURL` from `internal/utils.go`. -/
def parseYouTubeURL (rawURL : List Char) : ParsedArg :=
  let u := parseURL rawURL
  let host := toLowerL u.host
  if !(host == ("www.youtube.com").toList || host == ("youtube.com").toList ||
       host == ("youtu.be").toList) then
    ⟨.unknown, rawURL, [], [], some (("not a YouTube URL: ").toList ++ host)⟩
  else if host == ("youtu.be").toList then
    let videoID := trimLead ['/'] u.path
    if detectVideoID videoID then
      ⟨.video, rawURL, watchURL videoID, videoID, none⟩
    else
      ⟨.unknown, rawURL, [], [],
        some (("invalid video ID in youtu.be URL: ").toList ++ videoID)⟩
  else if isPrefixOfL (("/watch").toList) u.path then parseWatchURL u rawURL
  else if isPrefixOfL (("/playlist").toList) u.path then parsePlaylistURL u rawURL
  else if isPrefixOfL (("/channel/").toList) u.path then parseChannelURL u rawURL
  else if isPrefixOfL (("/@").toList) u.path then parseHandleURL u rawURL
  else if isPrefixOfL (("/c/").toList) u.path then parseCustomChannelURL u rawURL
  else if isPrefixOfL (("/user/").toList) u.path then parseUserChannelURL u rawURL
  else
    ⟨.unknown, rawURL, [], [], some (("unsupported YouTube URL path: ").toList ++ u.path)⟩

/-- `ParseArgNew` from `internal/utils.go`: trim, URLs to the URL
parser, otherwise dispatch on the detected content type.  In the Go
switch the channel case falls through to the final
unexpected-parsing-state return when neither channel form matches. -/
def ParseArgNew (arg : List Char) : ParsedArg :=
  let arg := trimAscii arg
  if isPrefixOfL (("http://").toList) arg || isPrefixOfL (("https://").toList) arg then
    parseYouTubeURL arg
  else
    match detectContentType arg with
    | .video => ⟨.video, arg, watchURL arg, arg, none⟩
    | .playlist => ⟨.playlist, arg, playlistURL arg, arg, none⟩
    | .channel =>
      if detectChannelID arg then ⟨.channel, arg, channelURL arg, arg, none⟩
      else if detectChannelHandle arg then
        let handle := if isPrefixOfL ['@'] arg then arg else '@' :: arg
        ⟨.channel, arg, ("https://www.youtube.com/").toList ++ handle, handle, none⟩
      else
        ⟨.unknown, arg, [], [], some (("unexpected parsing state for ").toList ++ arg)⟩
    | .command =>
      ⟨.command, arg, [], [],
        some (arg ++ (" looks like a command, not YouTube content").toList)⟩
    | .unknown =>
      ⟨.unknown, arg, [], [],
        some (("unable to determine content type for ").toList ++ arg)⟩

/-- `ParseArg`: backward-compatible `(url, id)` projection; on error
both components are the original argument. -/
def ParseArg (arg : List Char) : List Char × List Char :=
  let parsed := ParseArgNew arg
  match parsed.err with
  | some _ => (arg, arg)
  | none => (parsed.normalizedURL, parsed.id)

/-! ## Claim C9 -/

/-- Dropping a false-headed run is the identity when no element
satisfies the predicate. -/
theorem dropWhile_eq_self_of_all_false (p : Char → Bool) (s : List Char)
    (h : ∀ c ∈ s, p c = false) : s.dropWhile p = s := by
  cases s with
  | nil => rfl
  | cons c t => simp [List.dropWhile_cons, h c (List.mem_cons_self c t)]

/-- Trimming is the identity on whitespace-free strings. -/
theorem trimAscii_eq_self (s : List Char) (h : ∀ c ∈ s, goIsSpace c = false) :
    trimAscii s = s := by
  unfold trimAscii
  rw [dropWhile_eq_self_of_all_false goIsSpace s h,
    dropWhile_eq_self_of_all_false goIsSpace s.reverse
      (fun c hc => h c (List.mem_reverse.mp hc)),
    List.reverse_reverse]

/-- Every character of a prefix occurs in the string. -/
theorem mem_of_isPrefixOfL :
    ∀ {pre s : List Char}, isPrefixOfL pre s = true → ∀ c ∈ pre, c ∈ s := by
  intro pre
  induction pre with
  | nil => intro s _ c hc; exact absurd hc (List.not_mem_nil c)
  | cons a as ih =>
    intro s h c hc
    cases s with
    | nil => exact absurd h (by simp [isPrefixOfL])
    | cons b bs =>
      simp only [isPrefixOfL, Bool.and_eq_true, beq_iff_eq] at h
      rcases List.mem_cons.mp hc with hc | hc
      · exact hc ▸ h.1 ▸ List.mem_cons_self b bs
      · exact List.mem_cons_of_mem b (ih h.2 c hc)

/-- A string of video-ID characters cannot start with an URL scheme
(the scheme contains a colon, which is not a video-ID character). -/
theorem no_scheme_of_videoIDChars (s : List Char)
    (h : ∀ c ∈ s, isVideoIDChar c = true) :
    (isPrefixOfL (("http://").toList) s || isPrefixOfL (("https://").toList) s) = false := by
  have h1 : isPrefixOfL (("http://").toList) s = false := by
    cases hp : isPrefixOfL (("http://").toList) s with
    | false => rfl
    | true =>
      have hmem := mem_of_isPrefixOfL hp ':' (by decide)
      exact absurd (h ':' hmem) (by decide)
  have h2 : isPrefixOfL (("https://").toList) s = false := by
    cases hp : isPrefixOfL (("https://").toList) s with
    | false => rfl
    | true =>
      have hmem := mem_of_isPrefixOfL hp ':' (by decide)
      exact absurd (h ':' hmem) (by decide)
  rw [h1, h2]
  rfl

/-- A video-ID character is not whitespace. -/
theorem goIsSpace_eq_false_of_videoIDChar (c : Char) (h : isVideoIDChar c = true) :
    goIsSpace c = false := by
  cases hsp : goIsSpace c with
  | false => rfl
  | true =>
    exfalso
    simp only [goIsSpace, Bool.or_eq_true, decide_eq_true_eq] at hsp
    rcases hsp with (((((rfl | rfl) | rfl) | rfl) | rfl) | rfl) <;> revert h <;> decide

/-- Claim C9: every bare 11-character token over `A-Z a-z 0-9 - _`
classifies as a video, with the canonical URL equal to the fixed
watch-URL template applied to the token and the canonical ID equal to
the token unchanged (and no error). -/
theorem parseArgNew_bare_video_token (s : List Char)
    (h1 : s.length = 11) (h2 : ∀ c ∈ s, isVideoIDChar c = true) :
    ParseArgNew s = ⟨.video, s, watchURL s, s, none⟩ := by
  have hspace : ∀ c ∈ s, goIsSpace c = false := fun c hc =>
    goIsSpace_eq_false_of_videoIDChar c (h2 c hc)
  have htrim : trimAscii s = s := trimAscii_eq_self s hspace
  have hall : s.all isVideoIDChar = true := List.all_eq_true.mpr h2
  have hvid : detectVideoID s = true := by
    simp [detectVideoID, h1, hall]
  unfold ParseArgNew
  rw [htrim]
  simp only [no_scheme_of_videoIDChars s h2, Bool.false_eq_true, if_false,
    detectContentType, htrim, hvid, if_true]

/-! ## Chunked transcription (`internal/openai.go`)

`Transcribe` / `TranscribeWithProgress`: stat the audio file, compute
`numChunks = int(math.Ceil(float64(fileSize) / float64(whisperLimit)))`,
split only when more than one chunk is needed, transcribe the chunks
sequentially joining with single newlines, and on the way out delete
the chunk files plus, when splitting occurred, the original audio file
(`cleanupFiles` in the deferred block).  `math.Ceil` over `float64`
agrees with exact ceiling division for every byte size below 2^53
(about 9 petabytes), so the chunk count is modelled as exact ceiling
division on naturals.  The reference deployment passes
`WhisperLimit = 25 << 20` for the limit. -/

/-- The Whisper API size limit used by the program (25 MiB). -/
def WhisperLimit : Nat := 25 <<< 20

/-- The chunk count of `TranscribeWithProgress`. -/
def numChunks (fileSize whisperLimit : Nat) : Nat :=
  (fileSize + whisperLimit - 1) / whisperLimit

/-- Transcription failure modes. -/
inductive TranscribeErr where
  | noClient
  | statFailed
  | splitFailed
  | chunkFailed (i : Nat)
deriving DecidableEq, Repr

/-- Pre-recorded outcomes of the collaborators `TranscribeWithProgress`
consults: client initialisation, `os.Stat`, `audio.Split`, and the
per-chunk transcription service (`chunkText i` is the outcome for chunk
index `i`; a failed `os.Open` of a chunk is folded into its error). -/
structure TranscribeEnv where
  clientOK : Bool
  statSize : Option Nat
  splitPaths : Except Unit (List String)
  chunkText : Nat → Except Unit String

/-- The chunk list selected for a given size: split results when more
than one chunk is needed, otherwise the audio file itself is the single
chunk. -/
def chunkPlan (split : Except Unit (List String)) (audioFile : String)
    (fileSize whisperLimit : Nat) : Except Unit (List String) :=
  if 1 < numChunks fileSize whisperLimit then split else .ok [audioFile]

/-- Sequential transcription of the chunk list
(`processAudioChunksWithProgress`): strictly in order, aborting on the
first failure. -/
def processChunksAux (env : TranscribeEnv) : Nat → List String → Except TranscribeErr (List String)
  | _, [] => .ok []
  | i, _ :: rest =>
    match env.chunkText i with
    | .error _ => .error (.chunkFailed i)
    | .ok t =>
      match processChunksAux env (i + 1) rest with
      | .error e => .error e
      | .ok ts => .ok (t :: ts)

/-- Chunk texts concatenated with a single newline separator in
original order. -/
def processAudioChunks (env : TranscribeEnv) (chunks : List String) :
    Except TranscribeErr String :=
  (processChunksAux env 0 chunks).map (String.intercalate "\n")

/-- `TranscribeWithProgress` (and `Transcribe`): result plus the list of
files removed by the deferred cleanup (`cleanupFiles(chunks...)`, and
additionally the input file when more than one chunk exists).  Early
returns before the `defer` is installed (missing client, failed stat,
failed split) delete nothing. -/
def TranscribeWithProgress (env : TranscribeEnv) (audioFile : String)
    (whisperLimit : Nat) : Except TranscribeErr String × List String :=
  if !env.clientOK then (.error .noClient, [])
  else
    match env.statSize with
    | none => (.error .statFailed, [])
    | some fileSize =>
      match chunkPlan env.splitPaths audioFile fileSize whisperLimit with
      | .error _ => (.error .splitFailed, [])
      | .ok chunks =>
        let deleted := chunks ++ (if 1 < chunks.length then [audioFile] else [])
        (processAudioChunks env chunks, deleted)

/-! ## Claims C6 and C10 -/

/-- Claim C6: with a positive limit `L`, the chunk count for byte size
`S` is exactly the ceiling of the rational `S / L`; at `S = L` it is 1
and no split is consulted (the single chunk is the audio file itself,
whatever the split collaborator would return); at `S = L + 1` it is 2. -/
theorem numChunks_is_ceil (S L : Nat) (hL : 0 < L) :
    ((numChunks S L : ℤ) = ⌈(S : ℚ) / (L : ℚ)⌉) ∧
      numChunks L L = 1 ∧ numChunks (L + 1) L = 2 ∧
      ∀ (split : Except Unit (List String)) (audioFile : String),
        chunkPlan split audioFile L L = .ok [audioFile] := by
  have hLQ : (0 : ℚ) < (L : ℚ) := by exact_mod_cast hL
  -- the Nat characterisation: numChunks S L is the least n with S ≤ n * L
  have hub : ∀ S' : Nat, S' ≤ numChunks S' L * L := by
    intro S'
    have h := (Nat.div_lt_iff_lt_mul hL).mp
      (Nat.lt_succ_self ((S' + L - 1) / L))
    unfold numChunks
    generalize hq : (S' + L - 1) / L = q at h ⊢
    rw [Nat.succ_mul] at h
    generalize q * L = t at h ⊢
    omega
  have hmin : ∀ (S' m : Nat), S' ≤ m * L → numChunks S' L ≤ m := by
    intro S' m hm
    unfold numChunks
    rw [Nat.div_le_iff_le_mul_add_pred hL]
    rw [mul_comm] at hm
    generalize L * m = t at hm ⊢
    omega
  refine ⟨?_, ?_, ?_, ?_⟩
  · -- ℚ-ceiling form, via Int.ceil_eq_iff
    symm
    rw [Int.ceil_eq_iff]
    constructor
    · -- (numChunks S L : ℚ) - 1 < S / L
      rcases Nat.eq_zero_or_pos (numChunks S L) with h0 | hpos
      · rw [h0]
        push_cast
        have : (0 : ℚ) ≤ (S : ℚ) / L := by positivity
        linarith
      · obtain ⟨m, hm⟩ := Nat.exists_eq_add_of_lt hpos
        have hnot : ¬ (S ≤ m * L) := by
          intro hle
          have := hmin S m hle
          omega
        have hlt : m * L < S := Nat.lt_of_not_le hnot
        rw [lt_div_iff₀ hLQ]
        have : ((m * L : Nat) : ℚ) < (S : ℚ) := by exact_mod_cast hlt
        push_cast at this ⊢
        rw [hm]
        push_cast
        linarith
    · -- S / L ≤ numChunks S L
      rw [div_le_iff₀ hLQ]
      have := hub S
      exact_mod_cast this
  · -- S = L: exactly one chunk
    have h1 : L ≤ numChunks L L * L := hub L
    have h2 : numChunks L L ≤ 1 := hmin L 1 (by omega)
    have h3 : 1 ≤ numChunks L L := by
      by_contra hcon
      have h0 : numChunks L L = 0 := by omega
      rw [h0] at h1
      omega
    omega
  · -- S = L + 1: exactly two chunks
    have h1 : L + 1 ≤ numChunks (L + 1) L * L := hub (L + 1)
    have h2 : numChunks (L + 1) L ≤ 2 := hmin (L + 1) 2 (by omega)
    have h3 : 2 ≤ numChunks (L + 1) L := by
      by_contra hcon
      have hle : numChunks (L + 1) L ≤ 1 := by omega
      have := Nat.mul_le_mul_right L hle
      omega
    omega
  · -- S = L: the split result is never consulted
    intro split audioFile
    have h2 : numChunks L L ≤ 1 := hmin L 1 (by omega)
    simp [chunkPlan, Nat.not_lt.mpr h2]

/-- Witness for claim C6 at S = 7, L = 3 (and the S = L, S = L + 1
evaluations at L = 3): 7 bytes with limit 3 need ceil(7/3) = 3 chunks. -/
theorem numChunks_is_ceil_witness :
    (0 < 3) ∧ ((numChunks 7 3 : ℤ) = ⌈(7 : ℚ) / (3 : ℚ)⌉) ∧
      numChunks 3 3 = 1 ∧ numChunks 4 3 = 2 :=
  ⟨by decide, (numChunks_is_ceil 7 3 (by decide)).1,
    (numChunks_is_ceil 3 3 (by decide)).2.1,
    (numChunks_is_ceil 3 3 (by decide)).2.2.1⟩

/-- Claim C10: when the audio file fits within the limit it is itself
the single chunk, so the deferred cleanup deletes exactly the
caller-supplied input audio file, whatever the per-chunk transcription
outcomes are. -/
theorem transcribe_single_chunk_deletes_input (env : TranscribeEnv)
    (audioFile : String) (S L : Nat)
    (hclient : env.clientOK = true) (hstat : env.statSize = some S)
    (hL : 0 < L) (hS : S ≤ L) :
    (TranscribeWithProgress env audioFile L).2 = [audioFile] := by
  have hn : ¬ 1 < numChunks S L := by
    have hlt : (S + L - 1) / L < 2 := (Nat.div_lt_iff_lt_mul hL).mpr (by omega)
    unfold numChunks
    omega
  simp [TranscribeWithProgress, hclient, hstat, chunkPlan, hn]

/-- Witness for claim C10: a 5-byte file with limit 10 (one chunk, the
transcription of which fails) still has exactly the input file deleted. -/
theorem transcribe_single_chunk_deletes_input_witness :
    (TranscribeWithProgress
        ⟨true, some 5, .ok [], fun _ => .error ()⟩ ("audio.mp3") 10).2 =
      [("audio.mp3")] :=
  transcribe_single_chunk_deletes_input
    ⟨true, some 5, .ok [], fun _ => .error ()⟩ ("audio.mp3") 5 10
    rfl rfl (by decide) (by decide)

/-- Witness for claim C9 at the token dQw4w9WgXcQ. -/
theorem parseArgNew_bare_video_token_witness :
    (("dQw4w9WgXcQ").toList.length = 11) ∧
      (∀ c ∈ ("dQw4w9WgXcQ").toList, isVideoIDChar c = true) ∧
      ParseArgNew (("dQw4w9WgXcQ").toList) =
        ⟨.video, ("dQw4w9WgXcQ").toList, watchURL (("dQw4w9WgXcQ").toList),
          ("dQw4w9WgXcQ").toList, none⟩ :=
  ⟨by decide, by decide,
    parseArgNew_bare_video_token (("dQw4w9WgXcQ").toList) (by decide) (by decide)⟩

/-! ## Single-video acquisition pipeline (`internal/app.go`)

Two revisions of the pipeline live in the repository:
`getTranscriptWithProgressManager` (with an in-memory metadata cache and
an inline Whisper fallback for caption-less videos) and
`GetTranscriptWithStatus` (whose caller `SummarizeYouTube` performs the
fallback decision after any transcript failure).  Both share the same
cache-check short-circuit and the same retry-once-on-`ErrDownloadFailed`
caption fetch.  The UI spinners and verbose printing are pure output and
are not modelled.  `SaveTranscript` / `SaveMetadata` are writes to the
local stores, not collaborator calls, and only their best-effort
(warning-only) nature matters, so they do not appear in the call
trace. -/

/-- The metadata fields the pipeline consults. -/
structure VideoMeta where
  title : String
  description : String
  channel : String
  duration : Nat
  hasCaptions : Bool
deriving DecidableEq, Repr

/-- Failure classification of one `FetchTranscript` call:
`downloadFailed` is the retryable `ErrDownloadFailed` sentinel;
`other` is every other error (missing subtitle file, bad video ID...). -/
inductive FetchErr where
  | downloadFailed
  | other
deriving DecidableEq, Repr

/-- External collaborator calls the pipeline can make, in order. -/
inductive CollabEvent where
  | metadataFetch
  | captionFetch
  | sleepOneSecond
  | askUser
  | audioDownload
  | transcribeCall
deriving DecidableEq, Repr

/-- Pre-recorded environment for one single-video acquisition:
transcript-store state and each collaborator call outcome.
`cachedTranscript = some (.ok t)` means the transcript file exists with
contents `t`; `some (.error ())` an existing but unreadable file;
`none` no file.  `fetch1` / `fetch2` are the outcomes of the first and
second `FetchTranscript` calls. -/
structure AcqEnv where
  dirsOK : Bool
  cachedTranscript : Option (Except Unit String)
  memMeta : Option VideoMeta
  diskMeta : Except Unit VideoMeta
  fetchMeta : Except Unit VideoMeta
  fetch1 : Except FetchErr String
  fetch2 : Except FetchErr String
  userAccepts : Bool
  audio : Except Unit String
  transcribe : Except Unit String

/-- Acquisition failure modes (per the Go error messages). -/
inductive AcqError where
  | dirsFailed
  | cacheReadFailed
  | metadataFailed
  | noTranscript
  | declined
  | audioFailed
  | transcribeFailed
deriving DecidableEq, Repr

/-- `metadataWithProgressManager`: in-memory cache, then disk cache,
then the metadata collaborator (whose call is traced). -/
def metadataPM (env : AcqEnv) : Except Unit VideoMeta × List CollabEvent :=
  match env.memMeta with
  | some m => (.ok m, [])
  | none =>
    match env.diskMeta with
    | .ok m => (.ok m, [])
    | .error _ =>
      match env.fetchMeta with
      | .ok m => (.ok m, [.metadataFetch])
      | .error e => (.error e, [.metadataFetch])

/-- `MetadataWithStatus` of `internal/app.go` (no in-memory tier):
disk cache, then the metadata collaborator. -/
def metadataWS (env : AcqEnv) : Except Unit VideoMeta × List CollabEvent :=
  match env.diskMeta with
  | .ok m => (.ok m, [])
  | .error _ =>
    match env.fetchMeta with
    | .ok m => (.ok m, [.metadataFetch])
    | .error e => (.error e, [.metadataFetch])

/-- The caption fetch with its retry policy, common to both pipeline
revisions: a first `FetchTranscript`; when it fails (an error, or an
empty-but-successful transcript), retry once after a fixed one-second
sleep ONLY when the error is the `ErrDownloadFailed` sentinel; a
failed retry (or any non-retryable first failure) yields the
"no transcript available" outcome. -/
def fetchCaptionsWithRetry (env : AcqEnv) : Except Unit String × List CollabEvent :=
  match env.fetch1 with
  | .ok t =>
    if t = "" then (.error (), [.captionFetch])
    else (.ok t, [.captionFetch])
  | .error .other => (.error (), [.captionFetch])
  | .error .downloadFailed =>
    match env.fetch2 with
    | .ok t =>
      if t = "" then (.error (), [.captionFetch, .sleepOneSecond, .captionFetch])
      else (.ok t, [.captionFetch, .sleepOneSecond, .captionFetch])
    | .error _ => (.error (), [.captionFetch, .sleepOneSecond, .captionFetch])

/-- The failure test `err != nil || transcript == ""` applied to one
fetch outcome. -/
def fetchOutcomeFailed : Except FetchErr String → Bool
  | .error _ => true
  | .ok t => t = ""

/-- `handleWhisperFallbackWithProgressManager`: without batch-level
pre-authorisation ask the user (declining is terminal and distinct);
then download audio and transcribe, saving the result best-effort. -/
def whisperFallback (env : AcqEnv) (fallbackWhisper : Bool) :
    Except AcqError String × List CollabEvent :=
  if !fallbackWhisper && !env.userAccepts then (.error .declined, [.askUser])
  else
    let pre : List CollabEvent := if !fallbackWhisper then [.askUser] else []
    match env.audio with
    | .error _ => (.error .audioFailed, pre ++ [.audioDownload])
    | .ok _ =>
      match env.transcribe with
      | .error _ => (.error .transcribeFailed, pre ++ [.audioDownload, .transcribeCall])
      | .ok t => (.ok t, pre ++ [.audioDownload, .transcribeCall])

/-- `getTranscriptWithProgressManager` (the progress-manager pipeline):
directory check; cache-check short-circuit; metadata (two-tier cache
then fetch); on `hasCaptions = false` the inline Whisper fallback; else
the caption fetch with retry, any failure of which is terminal
("no transcript available"). -/
def getTranscriptPM (env : AcqEnv) (fallbackWhisper : Bool) :
    Except AcqError String × List CollabEvent :=
  if !env.dirsOK then (.error .dirsFailed, [])
  else
    match env.cachedTranscript with
    | some (.ok t) => (.ok t, [])
    | some (.error _) => (.error .cacheReadFailed, [])
    | none =>
      match metadataPM env with
      | (.error _, tr) => (.error .metadataFailed, tr)
      | (.ok meta, tr) =>
        if !meta.hasCaptions then
          let (r, tr2) := whisperFallback env fallbackWhisper
          (r, tr ++ tr2)
        else
          match fetchCaptionsWithRetry env with
          | (.ok t, tr2) => (.ok t, tr ++ tr2)
          | (.error _, tr2) => (.error .noTranscript, tr ++ tr2)

/-- `GetTranscriptWithStatus` of `internal/app.go`: directory check;
cache-check short-circuit; metadata (disk cache then fetch); on
`hasCaptions = false` the "no captions available" error (the caller
decides about the fallback); else the caption fetch with retry, saving
a successful transcript best-effort. -/
def getTranscriptWS (env : AcqEnv) : Except AcqError String × List CollabEvent :=
  if !env.dirsOK then (.error .dirsFailed, [])
  else
    match env.cachedTranscript with
    | some (.ok t) => (.ok t, [])
    | some (.error _) => (.error .cacheReadFailed, [])
    | none =>
      match metadataWS env with
      | (.error _, tr) => (.error .metadataFailed, tr)
      | (.ok meta, tr) =>
        if !meta.hasCaptions then (.error .noTranscript, tr)
        else
          match fetchCaptionsWithRetry env with
          | (.ok t, tr2) => (.ok t, tr ++ tr2)
          | (.error _, tr2) => (.error .noTranscript, tr ++ tr2)

/-- The acquisition phase of `SummarizeYouTube` in `internal/app.go`:
`GetTranscriptWithStatus`, and on ANY transcript failure the fallback
decision (interactive confirmation unless pre-authorised, then audio
download and Whisper transcription, saved best-effort). -/
def summarizeAcquire (env : AcqEnv) (fallbackWhisper : Bool) :
    Except AcqError String × List CollabEvent :=
  match getTranscriptWS env with
  | (.ok t, tr) => (.ok t, tr)
  | (.error _, tr) =>
    if !fallbackWhisper && !env.userAccepts then (.error .declined, tr ++ [.askUser])
    else
      let pre : List CollabEvent := if !fallbackWhisper then [.askUser] else []
      match env.audio with
      | .error _ => (.error .audioFailed, tr ++ pre ++ [.audioDownload])
      | .ok _ =>
        match env.transcribe with
        | .error _ => (.error .transcribeFailed, tr ++ pre ++ [.audioDownload, .transcribeCall])
        | .ok t => (.ok t, tr ++ pre ++ [.audioDownload, .transcribeCall])

/-! ## Claim C1 -/

/-- Claim C1: whenever the transcript file exists (and is readable) for
the canonical ID, both revisions of the acquisition operation return
exactly its contents, with an empty collaborator-call trace (no
metadata fetch, no caption download, no audio download, no
transcription call) — terminal success at the cache-check state. -/
theorem acquisition_cache_hit_short_circuit (env : AcqEnv)
    (fallbackWhisper : Bool) (t : String)
    (hdirs : env.dirsOK = true) (hcache : env.cachedTranscript = some (.ok t)) :
    getTranscriptPM env fallbackWhisper = (.ok t, []) ∧
      getTranscriptWS env = (.ok t, []) := by
  constructor <;> simp [getTranscriptPM, getTranscriptWS, hdirs, hcache]

/-- Witness for claim C1: a concrete environment whose transcript store
holds "cached text" while every collaborator outcome is armed, so any
collaborator call would be visible in the trace. -/
theorem acquisition_cache_hit_short_circuit_witness :
    (AcqEnv.dirsOK ⟨true, some (.ok ("cached text")), none, .error (),
        .ok ⟨("T"), ("D"), ("C"), 10, true⟩, .ok ("fetched"), .ok ("fetched2"),
        true, .ok ("a.mp3"), .ok ("whisper text")⟩ = true) ∧
      getTranscriptPM ⟨true, some (.ok ("cached text")), none, .error (),
        .ok ⟨("T"), ("D"), ("C"), 10, true⟩, .ok ("fetched"), .ok ("fetched2"),
        true, .ok ("a.mp3"), .ok ("whisper text")⟩ false = (.ok ("cached text"), []) ∧
      getTranscriptWS ⟨true, some (.ok ("cached text")), none, .error (),
        .ok ⟨("T"), ("D"), ("C"), 10, true⟩, .ok ("fetched"), .ok ("fetched2"),
        true, .ok ("a.mp3"), .ok ("whisper text")⟩ = (.ok ("cached text"), []) :=
  ⟨rfl,
    (acquisition_cache_hit_short_circuit _ false ("cached text") rfl rfl).1,
    (acquisition_cache_hit_short_circuit _ false ("cached text") rfl rfl).2⟩

/-! ## Claim C2 -/

/-- Claim C2, on three arbitrary environments covering the three failure
shapes of a caption-fetch attempt.
(1) A first fetch failing with the retryable `ErrDownloadFailed`
sentinel performs exactly one retry, after the fixed one-second delay:
the trace is fetch, sleep, fetch.
(2) A first fetch failing with any other error, or succeeding with an
empty transcript, performs no retry (a single fetch in the trace) and
fails; under the composed summarize pipeline (captions advertised,
metadata cached, transcript store empty) this failure proceeds directly
to the fallback decision: the very next event after the single fetch is
the interactive fallback prompt.
(3) After a failed retry the outcome is the same non-retryable
"no transcript available" failure that (2) produces. -/
theorem caption_fetch_retry_policy (e1 e2 e3 : AcqEnv) (m : VideoMeta)
    (h1 : e1.fetch1 = .error .downloadFailed)
    (h2 : e2.fetch1 = .error .other ∨ e2.fetch1 = .ok "")
    (h2dirs : e2.dirsOK = true) (h2cache : e2.cachedTranscript = none)
    (h2meta : e2.diskMeta = .ok m) (h2cap : m.hasCaptions = true)
    (h2user : e2.userAccepts = false)
    (h3 : e3.fetch1 = .error .downloadFailed)
    (h3retry : fetchOutcomeFailed e3.fetch2 = true) :
    (fetchCaptionsWithRetry e1).2 = [.captionFetch, .sleepOneSecond, .captionFetch] ∧
      (fetchCaptionsWithRetry e2).2 = [.captionFetch] ∧
      (fetchCaptionsWithRetry e2).1 = .error () ∧
      getTranscriptWS e2 = (.error .noTranscript, [.captionFetch]) ∧
      summarizeAcquire e2 false = (.error .declined, [.captionFetch, .askUser]) ∧
      (fetchCaptionsWithRetry e3).1 = .error () := by
  have hfetch : fetchCaptionsWithRetry e2 = (.error (), [.captionFetch]) := by
    rcases h2 with h | h <;> simp [fetchCaptionsWithRetry, h]
  have hws : getTranscriptWS e2 = (.error .noTranscript, [.captionFetch]) := by
    simp [getTranscriptWS, h2dirs, h2cache, metadataWS, h2meta, h2cap, hfetch]
  refine ⟨?_, ?_, ?_, hws, ?_, ?_⟩
  · rcases he : e1.fetch2 with e' | t'
    · simp [fetchCaptionsWithRetry, h1, he]
    · by_cases ht : t' = "" <;> simp [fetchCaptionsWithRetry, h1, he, ht]
  · rw [hfetch]
  · rw [hfetch]
  · simp [summarizeAcquire, hws, h2user]
  · rcases he : e3.fetch2 with e' | t'
    · simp [fetchCaptionsWithRetry, h3, he]
    · rw [he] at h3retry
      have ht : t' = "" := by simpa [fetchOutcomeFailed] using h3retry
      simp [fetchCaptionsWithRetry, h3, he, ht]

/-- Metadata with captions advertised, shared by the C2 witness
environments. -/
def c2Meta : VideoMeta := ⟨("T"), ("D"), ("C"), 10, true⟩

/-- C2 witness environment: first fetch fails with the retryable
sentinel, the retry succeeds. -/
def c2EnvRetry : AcqEnv :=
  ⟨true, none, none, .ok c2Meta, .error (), .error .downloadFailed,
    .ok ("second try"), false, .error (), .error ()⟩

/-- C2 witness environment: first fetch fails with a non-retryable
error; the user declines the fallback. -/
def c2EnvOther : AcqEnv :=
  ⟨true, none, none, .ok c2Meta, .error (), .error .other,
    .ok ("unused"), false, .error (), .error ()⟩

/-- C2 witness environment: the sentinel failure followed by a failed
retry. -/
def c2EnvRetryFail : AcqEnv :=
  ⟨true, none, none, .ok c2Meta, .error (), .error .downloadFailed,
    .error .downloadFailed, false, .error (), .error ()⟩

/-- Witness for claim C2 at three concrete environments: a sentinel
failure (retried once after the delay), an other-error failure with
captions available and the user declining the fallback (single fetch,
then the fallback prompt), and a sentinel failure whose retry also
fails. -/
theorem caption_fetch_retry_policy_witness :
    c2EnvRetry.fetch1 = .error .downloadFailed ∧
      (c2EnvOther.fetch1 = .error FetchErr.other ∨ c2EnvOther.fetch1 = .ok "") ∧
      fetchOutcomeFailed c2EnvRetryFail.fetch2 = true ∧
      (fetchCaptionsWithRetry c2EnvRetry).2 =
        [.captionFetch, .sleepOneSecond, .captionFetch] ∧
      summarizeAcquire c2EnvOther false =
        (.error .declined, [.captionFetch, .askUser]) ∧
      (fetchCaptionsWithRetry c2EnvRetryFail).1 = .error () := by
  have h := caption_fetch_retry_policy c2EnvRetry c2EnvOther c2EnvRetryFail c2Meta
    rfl (Or.inl rfl) rfl rfl rfl rfl rfl rfl rfl
  exact ⟨rfl, Or.inl rfl, rfl, h.1, h.2.2.2.2.1, h.2.2.2.2.2⟩

/-! ## Playlist batch orchestrator (`SummarizePlaylist`)

`SummarizePlaylist` expands the playlist, iterates the items
sequentially, and for each item: transcript-store check first (a cache
hit skips the metadata fetch unless display metadata is missing); on a
cache miss, metadata then `GetTranscript`, with a per-item fallback
confirmation on failure.  Every per-item failure appends a labelled
entry to `skippedVideos` and `continue`s.  After the loop, an empty
success list is a hard failure; otherwise the combined transcript is
built and handed to the (out-of-scope) summarization step.

One Go subtlety is modelled faithfully: in the fresh-fetch branch,
`transcript, err := app.GetTranscript(...)` declares a NEW `transcript`
variable shadowing the outer one (the accompanying
`nolint:staticcheck,ineffassign` comment shows the tooling flagged it),
so for freshly fetched items the outer `transcript` appended to the
result remains the empty string; only cache-hit items carry their text
into the combined transcript. -/

/-- `VideoTranscript` from `internal/app.go` (`Duration` is a Go
`float64`; it is modelled as a whole number of seconds, which the
claims use exclusively). -/
structure VideoTranscript where
  url : String
  title : String
  channel : String
  duration : Nat
  description : String
  transcript : String
deriving DecidableEq, Repr

/-- Two-digit zero padding of `%02d` (seconds are below 60). -/
def pad2 (n : Nat) : String :=
  if n < 10 then "0" ++ toString n else toString n

/-- The `%d:%02d` duration format: whole minutes, then seconds. -/
def durFmt (d : Nat) : String :=
  toString (d / 60) ++ ":" ++ pad2 (d % 60)

/-- One labelled block of `buildPlaylistTranscript` (position `i`,
`n` successful videos). -/
def videoBlock (i n : Nat) (v : VideoTranscript) : String :=
  ("Video ") ++ toString (i + 1) ++ (" of ") ++ toString n ++ (": ") ++ v.title ++ ("\n") ++
    ("Duration: ") ++ durFmt v.duration ++ (" | Channel: ") ++ v.channel ++ ("\n") ++
    (if v.description ≠ "" then ("Description: ") ++ v.description ++ ("\n") else "") ++
    v.transcript

/-- `buildPlaylistTranscript`: header naming the playlist, then the
blocks of the successful videos in order, separated by a fixed
divider. -/
def buildPlaylistTranscript (playlistTitle : String) (videos : List VideoTranscript) : String :=
  ("Playlist: ") ++ playlistTitle ++ ("\n\n") ++
    String.intercalate ("\n\n---\n\n")
      (videos.enum.map fun iv => videoBlock iv.1 videos.length iv.2)

/-- Pre-recorded per-item environment of the playlist loop: the
transcript-store state for the item, the `LoadCachedMetadata` outcome,
the `app.Metadata` outcome, the `app.GetTranscript` outcome, the
per-item confirmation answer, and the audio/transcription outcomes. -/
structure ItemEnv where
  url : String
  cached : Option (Except Unit String)
  diskMeta : Except Unit VideoMeta
  metaResult : Except Unit VideoMeta
  getTranscript : Except Unit String
  userAccepts : Bool
  audio : Except Unit String
  transcribe : Except Unit String

/-- Outcome of one playlist item: a video entry for the combined
transcript, or a labelled skip entry. -/
inductive ItemOutcome where
  | success (v : VideoTranscript)
  | skip (label : String)
deriving DecidableEq, Repr

/-- The placeholder metadata used when a cache-hit item has no loadable
metadata and the fresh fetch also fails. -/
def placeholderMeta (i : Nat) : VideoMeta :=
  ⟨("Video ") ++ toString (i + 1), ("Metadata fetch failed"), ("Unknown"), 0, false⟩

/-- The description cap: over 150 bytes, keep 147 and add an ellipsis
(ASCII, so Go bytes and Lean characters agree). -/
def truncateDescription (d : String) : String :=
  if 150 < d.length then d.take 147 ++ ("...") else d

/-- The body of the `SummarizePlaylist` loop for item `i` (0-based).
In the fresh-fetch branch a successful `GetTranscript` (or a successful
Whisper transcription) stores its text into the SHADOWING inner
`transcript`, so the appended entry carries the outer, still-empty
transcript. -/
def processItem (fallbackWhisper : Bool) (i : Nat) (it : ItemEnv) : ItemOutcome :=
  match it.cached with
  | some (.error _) => .skip (("Video ") ++ toString (i + 1) ++ (" (cache read error)"))
  | some (.ok t) =>
    let metadata :=
      match it.diskMeta with
      | .ok m => m
      | .error _ =>
        match it.metaResult with
        | .ok m => m
        | .error _ => placeholderMeta i
    .success ⟨it.url, metadata.title, metadata.channel, metadata.duration,
      truncateDescription metadata.description, t⟩
  | none =>
    match it.metaResult with
    | .error _ => .skip (("Video ") ++ toString (i + 1) ++ (" (metadata error)"))
    | .ok metadata =>
      match it.getTranscript with
      | .ok _ =>
        .success ⟨it.url, metadata.title, metadata.channel, metadata.duration,
          truncateDescription metadata.description, ""⟩
      | .error _ =>
        if !fallbackWhisper && !it.userAccepts then
          .skip (("Video ") ++ toString (i + 1) ++ (": ") ++ metadata.title)
        else
          match it.audio with
          | .error _ =>
            .skip (("Video ") ++ toString (i + 1) ++ (": ") ++ metadata.title ++ (" (audio error)"))
          | .ok _ =>
            match it.transcribe with
            | .error _ =>
              .skip (("Video ") ++ toString (i + 1) ++ (": ") ++ metadata.title ++
                (" (transcription error)"))
            | .ok _ =>
              .success ⟨it.url, metadata.title, metadata.channel, metadata.duration,
                truncateDescription metadata.description, ""⟩

/-- The playlist loop from item index `i` on: every item is processed;
successes and skip labels are accumulated in order. -/
def runBatchAux (fallbackWhisper : Bool) : Nat → List ItemEnv → List VideoTranscript × List String
  | _, [] => ([], [])
  | i, it :: rest =>
    let (vs, sk) := runBatchAux fallbackWhisper (i + 1) rest
    match processItem fallbackWhisper i it with
    | .success v => (v :: vs, sk)
    | .skip l => (vs, l :: sk)

/-- Expanded playlist: title and per-item environments in playlist
order. -/
structure PlaylistEnv where
  title : String
  items : List ItemEnv

/-- Batch-level failure modes. -/
inductive BatchError where
  | expansionFailed
  | emptyPlaylist
  | noTranscripts
deriving DecidableEq, Repr

/-- The acquisition phase of `SummarizePlaylist`: expansion (an error
propagates, an empty expansion is a hard failure), the sequential item
loop, the zero-success hard failure, and the combined transcript plus
skip report.  The final summary generation is out of scope. -/
def SummarizePlaylistAcquire (playlist : Except Unit PlaylistEnv) (fallbackWhisper : Bool) :
    Except BatchError (String × List String) :=
  match playlist with
  | .error _ => .error .expansionFailed
  | .ok info =>
    if info.items.length = 0 then .error .emptyPlaylist
    else
      let (vs, sk) := runBatchAux fallbackWhisper 0 info.items
      if vs.length = 0 then .error .noTranscripts
      else .ok (buildPlaylistTranscript info.title vs, sk)

/-! ## Claim C7 -/

/-- The loop visits every item: the successes are exactly the items
whose processing succeeds, the skip labels exactly those that fail, in
order. -/
theorem runBatchAux_eq (fb : Bool) :
    ∀ (items : List ItemEnv) (i : Nat),
      runBatchAux fb i items =
        ((items.enumFrom i).filterMap fun p =>
          match processItem fb p.1 p.2 with
          | .success v => some v
          | .skip _ => none,
         (items.enumFrom i).filterMap fun p =>
          match processItem fb p.1 p.2 with
          | .success _ => none
          | .skip l => some l)
  | [], _ => rfl
  | it :: rest, i => by
    have ih := runBatchAux_eq fb rest (i + 1)
    cases h : processItem fb i it <;>
      simp [runBatchAux, ih, List.enumFrom, List.filterMap_cons, h]

/-- Claim C7: batch isolation of per-item failures.  Processing never
aborts: each of the `n` items contributes exactly one outcome — the
skip list is exactly the labelled entries of the failing items and the
success list exactly the non-failing items, both in playlist order, and
their lengths sum to `n`.  Given a successful expansion, the whole
batch run fails exactly when the expansion is empty or no item yields a
transcript. -/
theorem batch_per_item_failures_never_abort (info : PlaylistEnv) (fb : Bool) :
    (runBatchAux fb 0 info.items).1 =
        (info.items.enum.filterMap fun p =>
          match processItem fb p.1 p.2 with
          | .success v => some v
          | .skip _ => none) ∧
      (runBatchAux fb 0 info.items).2 =
        (info.items.enum.filterMap fun p =>
          match processItem fb p.1 p.2 with
          | .success _ => none
          | .skip l => some l) ∧
      (runBatchAux fb 0 info.items).1.length + (runBatchAux fb 0 info.items).2.length =
        info.items.length ∧
      ((∃ r, SummarizePlaylistAcquire (.ok info) fb = .error r) ↔
        info.items = [] ∨ (runBatchAux fb 0 info.items).1 = []) := by
  have h := runBatchAux_eq fb info.items 0
  have hlen : ∀ (items : List ItemEnv) (i : Nat),
      (runBatchAux fb i items).1.length + (runBatchAux fb i items).2.length = items.length := by
    intro items
    induction items with
    | nil => intro i; rfl
    | cons it rest ih =>
      intro i
      have := ih (i + 1)
      cases hp : processItem fb i it <;> simp [runBatchAux, hp] <;> omega
  refine ⟨?_, ?_, hlen info.items 0, ?_⟩
  · rw [h]; rfl
  · rw [h]; rfl
  · constructor
    · rintro ⟨r, hr⟩
      by_cases h0 : info.items.length = 0
      · exact Or.inl (List.length_eq_zero.mp h0)
      · right
        by_cases h1 : (runBatchAux fb 0 info.items).1.length = 0
        · exact List.length_eq_zero.mp h1
        · exfalso
          simp only [SummarizePlaylistAcquire, h0, if_false] at hr
          rw [if_neg h1] at hr
          exact Except.noConfusion hr
    · intro hor
      rcases hor with h0 | h1
      · exact ⟨.emptyPlaylist, by simp [SummarizePlaylistAcquire, h0]⟩
      · by_cases h0 : info.items.length = 0
        · exact ⟨.emptyPlaylist, by simp [SummarizePlaylistAcquire, h0]⟩
        · refine ⟨.noTranscripts, ?_⟩
          simp only [SummarizePlaylistAcquire, h0, if_false]
          rw [if_pos (by simp [h1])]

/-! ## Claim C8 -/

/-- Cached metadata of the first playlist item of the C8 scenario. -/
def c8Meta1 : VideoMeta := ⟨("Video One"), ("Desc one"), ("Channel A"), 125, true⟩

/-- Freshly fetched metadata of the second item (captions advertised,
fetch fails). -/
def c8Meta2 : VideoMeta := ⟨("Video Two"), ("Desc two"), ("Channel B"), 80, true⟩

/-- Cached metadata of the third item. -/
def c8Meta3 : VideoMeta := ⟨("Video Three"), ("Desc three"), ("Channel C"), 59, true⟩

/-- Item 1: transcript and metadata both cached. -/
def c8Item1 : ItemEnv :=
  ⟨("url1"), some (.ok ("First transcript text.")), .ok c8Meta1, .ok c8Meta1,
    .ok ("unused"), true, .ok ("a1"), .ok ("t1")⟩

/-- Item 2: no cached transcript, metadata fetched, caption fetch
fails, the user declines the paid fallback. -/
def c8Item2 : ItemEnv :=
  ⟨("url2"), none, .error (), .ok c8Meta2, .error (), false, .ok ("a2"), .ok ("t2")⟩

/-- Item 3: transcript and metadata both cached. -/
def c8Item3 : ItemEnv :=
  ⟨("url3"), some (.ok ("Third transcript text.")), .ok c8Meta3, .ok c8Meta3,
    .ok ("unused"), true, .ok ("a3"), .ok ("t3")⟩

/-- The successfully expanded 3-item playlist of the C8 scenario. -/
def c8Playlist : Except Unit PlaylistEnv :=
  .ok ⟨("My Playlist"), [c8Item1, c8Item2, c8Item3]⟩

/-- The combined transcript the code builds for the C8 scenario:
header, then the blocks of items 1 and 3 only, in original order, each
ending with the raw transcript of that item. -/
def c8ExpectedCombined : String :=
  ("Playlist: My Playlist\n\nVideo 1 of 2: Video One\nDuration: 2:05 | Channel: Channel A\nDescription: Desc one\nFirst transcript text.\n\n---\n\nVideo 2 of 2: Video Three\nDuration: 0:59 | Channel: Channel C\nDescription: Desc three\nThird transcript text.")

/-- Claim C8, counterexample: in the 3-item scenario (the caption
fetch of item 2 fails, the user declines, items 1 and 3 cached) the skip report
is exactly "Video 2: Video Two" — an entry carrying the index and
title but NO declined reason (the word "declined" does not occur in
it), refuting the claim that item 2 is reported with a declined
reason. -/
theorem playlist_decline_report_has_no_reason :
    SummarizePlaylistAcquire c8Playlist false =
        .ok (c8ExpectedCombined, [("Video 2: Video Two")]) ∧
      containsL (("Video 2: Video Two").toList) (("declined").toList) = false :=
  ⟨rfl, by decide⟩

/-- Claim C8, amended: in the 3-item scenario the combined transcript
contains the labelled blocks of items 1 and 3 only, in original order,
each block ending with the raw transcript text of that item, and the report
lists item 2 as skipped, identified by index and title
("Video 2: Video Two") with no explicit decline label. -/
theorem playlist_partial_failure_scenario :
    SummarizePlaylistAcquire c8Playlist false =
      .ok (c8ExpectedCombined, [("Video 2: Video Two")]) := rfl

end Tldw
